import Mathlib

/-
Verification of the stats aggregation and synchronization engine of the
photo-sharing application.

The embedding follows the Python sources:
  * src/photo-of-day-service/grpc_server.py
      - PhotoOfDayServicer.recalculate_stats
      - PhotoOfDayServicer.sync_existing_reactions
      - PhotoOfDayServicer.IncrementReaction / UpdateReaction
      - PhotoOfDayServicer.GetPhotoOfDay / GetPhotoStats
  * src/reaction-service/routers/reactions.py
      - add_reaction / update_reaction / delete_reaction

Timestamps are modelled as naturals: the code stores `created_at` values and
compares their ISO renderings, and ISO-8601 string comparison agrees with the
chronological order, so a totally ordered `Nat` clock is an order-faithful
model.  MongoDB documents keyed by (display_name, photo_id) are modelled as
association lists; `update_one(..., upsert=True)` updates the first matching
entry or appends, `delete_one` removes the first matching entry, `find_one`
returns the first matching entry.
-/

namespace PhotoApp

/-- Key of a photo statistics document: (display_name, photo_id). -/
abbrev PKey := String × Nat

/-- One reaction document of the `reactions` collection
(reaction-service `models.Reaction`). -/
structure ReactionEvent where
  display_name : String
  photo_id : Nat
  reactor_name : String
  reaction : String
  created_at : Nat
  updated_at : Nat
deriving DecidableEq, Repr

/-- One document of the `photo_stats` collection, as written by
`recalculate_stats` and `sync_existing_reactions`. -/
structure StatsRecord where
  total_reactions : Nat
  reaction_breakdown : List (String × Nat)
  first_reaction_date : Nat
  last_reaction_date : Nat
deriving DecidableEq, Repr

/-- The `photo_stats` collection: documents keyed by (display_name, photo_id). -/
abbrev Store := List (PKey × StatsRecord)

/-- Python `breakdown[reaction_type] = breakdown.get(reaction_type, 0) + 1` on a
dict with insertion order: increment the first entry with the given key, or
append a fresh entry with count 1. -/
def bump : List (String × Nat) → String → List (String × Nat)
  | [], k => [(k, 1)]
  | (k', n) :: rest, k =>
    if k' = k then (k', n + 1) :: rest else (k', n) :: bump rest k

/-- Breakdown dict built by the loop over `reactions_list` in
`recalculate_stats` (grpc_server.py lines 179-182). -/
def mkBreakdown (l : List ReactionEvent) : List (String × Nat) :=
  l.foldl (fun b e => bump b e.reaction) []

/-- Python `sum(breakdown.values())`. -/
def sumValues : List (String × Nat) → Nat
  | [] => 0
  | (_, n) :: rest => n + sumValues rest

/-- Dict lookup `breakdown.get(k)`. -/
def lookupB : List (String × Nat) → String → Option Nat
  | [], _ => none
  | (k', n) :: rest, k => if k' = k then some n else lookupB rest k

/-- Number of events of a given reaction kind. -/
def countKind : List ReactionEvent → String → Nat
  | [], _ => 0
  | e :: es, k => (if e.reaction = k then 1 else 0) + countKind es k

/-- Python `min` folded over the tail of a nonempty list. -/
def listMin : Nat → List Nat → Nat
  | a, [] => a
  | a, x :: xs => listMin (min a x) xs

/-- Python `max` folded over the tail of a nonempty list. -/
def listMax : Nat → List Nat → Nat
  | a, [] => a
  | a, x :: xs => listMax (max a x) xs

/-- Python `min(dates)`; the empty case mirrors the `datetime.utcnow()`
fallback of grpc_server.py line 188, which is unreachable because the
surrounding branch requires a nonempty `reactions_list`.  A fixed constant
stands in for the unreachable clock read. -/
def pyMin : List Nat → Nat
  | [] => 0
  | x :: xs => listMin x xs

/-- Python `max(dates)` with the same unreachable fallback as `pyMin`. -/
def pyMax : List Nat → Nat
  | [] => 0
  | x :: xs => listMax x xs

/-- Statistics computed from a nonempty reaction list, exactly the body of
`recalculate_stats` lines 178-189 (breakdown, total as the sum of the
breakdown values, min and max over `created_at`). -/
def aggregateRecord (e : ReactionEvent) (es : List ReactionEvent) : StatsRecord :=
  let breakdown := mkBreakdown (e :: es)
  { total_reactions := sumValues breakdown
    reaction_breakdown := breakdown
    first_reaction_date := pyMin ((e :: es).map ReactionEvent.created_at)
    last_reaction_date := pyMax ((e :: es).map ReactionEvent.created_at) }

/-- The pure aggregation step of `recalculate_stats`: `none` on an empty
event list (the delete branch of lines 167-176), otherwise the populated
record. -/
def aggregate : List ReactionEvent → Option StatsRecord
  | [] => none
  | e :: es => some (aggregateRecord e es)

/-- Mongo query `find({display_name: dn, photo_id: pid})` over the reactions
collection in document order. -/
def eventsFor : List ReactionEvent → String → Nat → List ReactionEvent
  | [], _, _ => []
  | e :: es, dn, pid =>
    if e.display_name = dn ∧ e.photo_id = pid then e :: eventsFor es dn pid
    else eventsFor es dn pid

/-- Mongo `find_one` on `photo_stats` by key. -/
def lookupStats : Store → PKey → Option StatsRecord
  | [], _ => none
  | (k', r') :: rest, k => if k' = k then some r' else lookupStats rest k

/-- Mongo `update_one({key}, {set: fields}, upsert=True)`: replace the stats
fields of the first matching document, or insert a new document. -/
def upsert : Store → PKey → StatsRecord → Store
  | [], k, r => [(k, r)]
  | (k', r') :: rest, k, r =>
    if k' = k then (k, r) :: rest else (k', r') :: upsert rest k r

/-- Mongo `delete_one({key})`: remove the first matching document. -/
def deleteKey : Store → PKey → Store
  | [], _ => []
  | (k', r') :: rest, k => if k' = k then rest else (k', r') :: deleteKey rest k

/-- PhotoOfDayServicer.recalculate_stats (grpc_server.py lines 141-218):
fetch all reactions of the photo, delete the stats document when there are
none, otherwise upsert the recomputed record; returns the new store and the
returned total. -/
def recalculate_stats (db : List ReactionEvent) (stats : Store)
    (display_name : String) (photo_id : Nat) : Store × Nat :=
  match aggregate (eventsFor db display_name photo_id) with
  | none => (deleteKey stats (display_name, photo_id), 0)
  | some r => (upsert stats (display_name, photo_id) r, r.total_reactions)

/-- Key of a reaction document in the grouping of `sync_existing_reactions`. -/
def eventKey (e : ReactionEvent) : PKey := (e.display_name, e.photo_id)

/-- Keys of the dict `photos_reactions` built by `sync_existing_reactions`
(grpc_server.py lines 57-73): first-occurrence order, no duplicates. -/
def keysOf (L : List ReactionEvent) : List PKey :=
  L.foldl (fun ks e => if eventKey e ∈ ks then ks else ks ++ [eventKey e]) []

/-- Record computed for one group in `sync_existing_reactions` lines 77-106;
the computation is textually the one of `recalculate_stats`.  The empty branch
mirrors the unreachable `datetime.utcnow()` fallback: every grouped key has at
least one event. -/
def recordFor (L : List ReactionEvent) (k : PKey) : StatsRecord :=
  match eventsFor L k.1 k.2 with
  | [] =>
    { total_reactions := 0, reaction_breakdown := []
      first_reaction_date := 0, last_reaction_date := 0 }
  | e :: es => aggregateRecord e es

/-- PhotoOfDayServicer.sync_existing_reactions (grpc_server.py lines 34-139):
group all reactions by photo, upsert a recomputed record for every group, then
delete every stats document whose key has no reactions left. -/
def syncAll (L : List ReactionEvent) (S : Store) : Store :=
  let keys := keysOf L
  (keys.foldl (fun s k => upsert s k (recordFor L k)) S).filter
    (fun p => decide (p.1 ∈ keys))

/-- Response of PhotoOfDayServicer.GetPhotoStats; timestamps are returned as
numbers, modelling the ISO-to-epoch conversion (order-faithful on the Nat
clock). -/
structure PhotoStatsResponse where
  found : Bool
  total_reactions : Nat
  reaction_breakdown : List (String × Nat)
  first_reaction_timestamp : Nat
  last_reaction_timestamp : Nat
deriving DecidableEq, Repr

/-- PhotoOfDayServicer.GetPhotoStats (grpc_server.py lines 388-434). -/
def GetPhotoStats (stats : Store) (display_name : String) (photo_id : Nat) :
    PhotoStatsResponse :=
  match lookupStats stats (display_name, photo_id) with
  | none =>
    { found := false, total_reactions := 0, reaction_breakdown := []
      first_reaction_timestamp := 0, last_reaction_timestamp := 0 }
  | some doc =>
    { found := true, total_reactions := doc.total_reactions
      reaction_breakdown := doc.reaction_breakdown
      first_reaction_timestamp := doc.first_reaction_date
      last_reaction_timestamp := doc.last_reaction_date }

/-- Window filter of GetPhotoOfDay (grpc_server.py lines 344-353): the Mongo
query keeps documents with `last_reaction_date` gte start AND lte end — both
bounds inclusive — and `total_reactions` gt 0. -/
def inWindowB (a b : Nat) (r : StatsRecord) : Bool :=
  decide (a ≤ r.last_reaction_date) && decide (r.last_reaction_date ≤ b) &&
    decide (0 < r.total_reactions)

/-- Selection performed by `find_one(..., sort=total_reactions descending)`:
a document of maximal total among the matches (the earlier document wins a
tie, one deterministic realization of Mongo's unspecified tie order). -/
def pickBest :
    Option (PKey × StatsRecord) → List (PKey × StatsRecord) →
      Option (PKey × StatsRecord)
  | acc, [] => acc
  | none, p :: rest => pickBest (some p) rest
  | some q, p :: rest =>
    pickBest (if q.2.total_reactions < p.2.total_reactions then some p else some q) rest

/-- PhotoOfDayServicer.GetPhotoOfDay, the window query core (lines 326-386). -/
def findBest (stats : Store) (a b : Nat) : Option (PKey × StatsRecord) :=
  pickBest none (stats.filter (fun p => inWindowB a b p.2))

/-- Errors raised by the reaction-service route handlers: the first four are
the domain errors of reaction-service exceptions.py; `attributeError` is the
Python AttributeError raised when a handler calls a method that
`PhotoOfDayClient` (clients.py lines 118-145, which defines only `connect`
and `increment_reaction`) does not have. -/
inductive ReactionError
  | invalidReaction
  | photoNotFound
  | reactionNotFound
  | reactionAlreadyExists
  | attributeError
deriving DecidableEq, Repr

/-- Body returned by the reaction route handlers. -/
structure ReactionResponse where
  display_name : String
  photo_id : Nat
  reactor_name : String
  reaction : String
  created_at : Nat
  updated_at : Nat
deriving DecidableEq, Repr

/-- Payload of the UpdateReaction gRPC notification sent by update_reaction
(reactions.py lines 212-217). -/
structure UpdateNotification where
  display_name : String
  photo_id : Nat
  old_reaction_type : String
  new_reaction_type : String
deriving DecidableEq, Repr

/-- Beanie `Reaction.find_one` by (display_name, photo_id, reactor_name). -/
def findReaction : List ReactionEvent → String → Nat → String → Option ReactionEvent
  | [], _, _, _ => none
  | e :: es, dn, pid, rn =>
    if e.display_name = dn ∧ e.photo_id = pid ∧ e.reactor_name = rn then some e
    else findReaction es dn pid rn

/-- Document deletion performed by `reaction.delete()`. -/
def removeReaction : List ReactionEvent → String → Nat → String → List ReactionEvent
  | [], _, _, _ => []
  | e :: es, dn, pid, rn =>
    if e.display_name = dn ∧ e.photo_id = pid ∧ e.reactor_name = rn then es
    else e :: removeReaction es dn pid rn

/-- In-place document update performed by `reaction.save()` on a fetched
document. -/
def replaceReaction :
    List ReactionEvent → String → Nat → String → ReactionEvent → List ReactionEvent
  | [], _, _, _, _ => []
  | e :: es, dn, pid, rn, e2 =>
    if e.display_name = dn ∧ e.photo_id = pid ∧ e.reactor_name = rn then e2 :: es
    else e :: replaceReaction es dn pid rn e2

/-- The in-memory mutation of update_reaction (reactions.py lines 209-210):
overwrite `reaction` and `updated_at`, leave every other field alone. -/
def updateReactionEvent (e : ReactionEvent) (newKind : String) (now : Nat) :
    ReactionEvent :=
  { e with reaction := newKind, updated_at := now }

/-- Arguments the update handler builds for the
`photo_of_day_client.update_reaction(...)` call at reactions.py lines
212-217: `old_reaction_type` is read from the document field that line 209
already overwrote, so it always equals the new kind.  The call itself never
executes, because the client has no such method. -/
def updateNotificationArgs (display_name : String) (photo_id : Nat)
    (updated : ReactionEvent) (newKind : String) : UpdateNotification :=
  { display_name := display_name, photo_id := photo_id
    old_reaction_type := updated.reaction, new_reaction_type := newKind }

/-- update_reaction (reactions.py lines 182-227): validate the new kind,
check the photo, find the reaction (404 when absent), mutate it in memory
and save it.  The `photo_of_day_client.update_reaction(...)` call that
follows (line 212) raises AttributeError — `PhotoOfDayClient` defines only
`connect` and `increment_reaction` — so the handler fails after the save and
the success response of lines 220-227 is unreachable.  The result pairs the
reactions collection as the handler leaves it with the outcome; the `ok`
payload is the shape the unreachable success path would have returned. -/
def update_reaction (allowed : List String) (photoExists : String → Nat → Bool)
    (db : List ReactionEvent) (display_name : String) (photo_id : Nat)
    (reactor_name : String) (newKind : String) (now : Nat) :
    List ReactionEvent × Except ReactionError (UpdateNotification × ReactionResponse) :=
  if newKind ∈ allowed then
    if photoExists display_name photo_id then
      match findReaction db display_name photo_id reactor_name with
      | none => (db, .error .reactionNotFound)
      | some reaction =>
        let updated := updateReactionEvent reaction newKind now
        (replaceReaction db display_name photo_id reactor_name updated,
          .error .attributeError)
    else (db, .error .photoNotFound)
  else (db, .error .invalidReaction)

/-- delete_reaction (reactions.py lines 242-269): check the photo, find the
reaction, raise ReactionNotFoundError when absent, otherwise delete the row.
The `photo_of_day_client.decrement_reaction(...)` call that follows
(line 265) raises AttributeError — `PhotoOfDayClient` has no such method —
so the handler fails after the deletion and no notification is sent. -/
def delete_reaction (photoExists : String → Nat → Bool) (db : List ReactionEvent)
    (display_name : String) (photo_id : Nat) (reactor_name : String) :
    List ReactionEvent × Except ReactionError Unit :=
  if photoExists display_name photo_id then
    match findReaction db display_name photo_id reactor_name with
    | none => (db, .error .reactionNotFound)
    | some _ =>
      (removeReaction db display_name photo_id reactor_name, .error .attributeError)
  else (db, .error .photoNotFound)

/-- Response message of the stats-service mutation RPCs. -/
structure IncrementReactionResponse where
  success : Bool
  message : String
  total_reactions : Nat
deriving DecidableEq, Repr

/-- recalculate_stats under an injected storage failure: the try/except of
grpc_server.py lines 149-218 catches any storage exception, logs it and
returns 0.  A Mongo single-document operation that raised did not modify the
collection, so the store is exactly as before the failed call — there is no
retry and no propagated error. -/
def recalcCatching (fail : Bool) (db : List ReactionEvent) (stats : Store)
    (display_name : String) (photo_id : Nat) : Store × Nat :=
  if fail then (stats, 0)
  else recalculate_stats db stats display_name photo_id

/-- PhotoOfDayServicer.IncrementReaction (grpc_server.py lines 220-252); the
except branch of the handler is unreachable for storage errors because
recalculate_stats swallows them, so the response always reports success. -/
def IncrementReaction (fail : Bool) (db : List ReactionEvent) (stats : Store)
    (display_name : String) (photo_id : Nat) (reaction_type : String) :
    Store × IncrementReactionResponse :=
  let res := recalcCatching fail db stats display_name photo_id
  (res.1,
    { success := true, message := "Reaction incremented successfully"
      total_reactions := res.2 })

/-- PhotoOfDayServicer.UpdateReaction (grpc_server.py lines 288-324): the
old and new reaction types are only logged; the recompute depends solely on
the reactions collection. -/
def UpdateReactionRPC (db : List ReactionEvent) (stats : Store)
    (display_name : String) (photo_id : Nat)
    (old_reaction_type new_reaction_type : String) :
    Store × IncrementReactionResponse :=
  let res := recalculate_stats db stats display_name photo_id
  (res.1,
    { success := true, message := "Reaction updated successfully"
      total_reactions := res.2 })

/-- One in-flight create-and-recompute task: program counter 0 is the
pending `reaction.save()`, 1 the reactions fetch of recalculate_stats, 2 the
stats write, 3 done; `buf` holds the fetched event list between the two
awaits of recalculate_stats. -/
structure TaskState where
  ev : ReactionEvent
  pc : Nat
  buf : List ReactionEvent
deriving DecidableEq, Repr

/-- Shared state: the reactions collection, the photo_stats collection and
two concurrent tasks. -/
structure SysState where
  log : List ReactionEvent
  stats : Store
  t1 : TaskState
  t2 : TaskState
deriving DecidableEq, Repr

/-- Upsert-or-delete step of recalculate_stats given an aggregation result. -/
def applyAggregate (stats : Store) (k : PKey) : Option StatsRecord → Store
  | none => deleteKey stats k
  | some r => upsert stats k r

/-- Execute the next awaited storage operation of one task; each step is one
atomic MongoDB operation, and the asyncio scheduler may interleave the tasks
arbitrarily between awaits. -/
def stepTask (log : List ReactionEvent) (stats : Store) (t : TaskState) :
    List ReactionEvent × Store × TaskState :=
  match t.pc with
  | 0 => (log ++ [t.ev], stats, { t with pc := 1 })
  | 1 =>
    (log, stats,
      { t with pc := 2, buf := eventsFor log t.ev.display_name t.ev.photo_id })
  | 2 =>
    (log,
      applyAggregate stats (t.ev.display_name, t.ev.photo_id) (aggregate t.buf),
      { t with pc := 3 })
  | _ => (log, stats, t)

/-- Advance one of the two tasks (true advances the first). -/
def step (which : Bool) (s : SysState) : SysState :=
  if which then
    let r := stepTask s.log s.stats s.t1
    { log := r.1, stats := r.2.1, t1 := r.2.2, t2 := s.t2 }
  else
    let r := stepTask s.log s.stats s.t2
    { log := r.1, stats := r.2.1, t1 := s.t1, t2 := r.2.2 }

/-- Run a schedule, an arbitrary interleaving of the two tasks. -/
def run (sched : List Bool) (s : SysState) : SysState :=
  sched.foldl (fun s w => step w s) s

/-- Scenario event: alice reacts coeur to photo (j, 5) at time 1. -/
def evAlice : ReactionEvent :=
  { display_name := "j", photo_id := 5, reactor_name := "alice"
    reaction := "coeur", created_at := 1, updated_at := 1 }

/-- Scenario event: bob reacts coeur to photo (j, 5) at time 2. -/
def evBob : ReactionEvent :=
  { display_name := "j", photo_id := 5, reactor_name := "bob"
    reaction := "coeur", created_at := 2, updated_at := 2 }

/-- Scenario event: carol reacts fire to photo (j, 5) at time 3. -/
def evCarol : ReactionEvent :=
  { display_name := "j", photo_id := 5, reactor_name := "carol"
    reaction := "fire", created_at := 3, updated_at := 3 }

/-- Scenario A event list. -/
def scenarioA : List ReactionEvent := [evAlice, evBob, evCarol]

/-- Expected aggregation result of Scenario A. -/
def scenarioARecord : StatsRecord :=
  { total_reactions := 3, reaction_breakdown := [("coeur", 2), ("fire", 1)]
    first_reaction_date := 1, last_reaction_date := 3 }

/-- Initial state of the Scenario F race: empty collections, two pending
creates by alice and bob on the same photo. -/
def raceInit : SysState :=
  { log := [], stats := []
    t1 := { ev := evAlice, pc := 0, buf := [] }
    t2 := { ev := evBob, pc := 0, buf := [] } }

/-- Scenario B event list: Scenario A after bob's reaction is deleted. -/
def scenarioBList : List ReactionEvent := [evAlice, evCarol]

/-- Expected aggregation result of Scenario B. -/
def scenarioBRecord : StatsRecord :=
  { total_reactions := 2, reaction_breakdown := [("coeur", 1), ("fire", 1)]
    first_reaction_date := 1, last_reaction_date := 3 }

/-- Scenario D kind update: alice switches to fire, everyone else keeps
their kind. -/
def scenarioDNewKind (e : ReactionEvent) : String :=
  if e.reactor_name = "alice" then "fire" else e.reaction

/-- Expected aggregation result of Scenario D (alice and carol both fire,
first reaction date still 1). -/
def scenarioDRecord : StatsRecord :=
  { total_reactions := 2, reaction_breakdown := [("fire", 2)]
    first_reaction_date := 1, last_reaction_date := 3 }

/-- Scenario E second record: total 7, last reaction inside the window. -/
def scenarioERecord : StatsRecord :=
  { total_reactions := 7, reaction_breakdown := [("fire", 7)]
    first_reaction_date := 1, last_reaction_date := 2 }

/-- Scenario E store: two photos with totals 3 and 7. -/
def scenarioEStore : Store :=
  [(("j", 5), scenarioARecord), (("k", 1), scenarioERecord)]

/-- Recomputed record after only carol's fire reaction remains. -/
def carolOnlyRecord : StatsRecord :=
  { total_reactions := 1, reaction_breakdown := [("fire", 1)]
    first_reaction_date := 3, last_reaction_date := 3 }


lemma bump_lookupB_self (b : List (String × Nat)) (k : String) :
    lookupB (bump b k) k = some ((lookupB b k).getD 0 + 1) := by
  induction b with
  | nil => simp [bump, lookupB]
  | cons p rest ih =>
    obtain ⟨k', n⟩ := p
    by_cases h : k' = k
    · subst h; simp [bump, lookupB]
    · simp [bump, lookupB, h, ih]

lemma bump_lookupB_other (b : List (String × Nat)) (k j : String) (h : j ≠ k) :
    lookupB (bump b k) j = lookupB b j := by
  induction b with
  | nil => simp [bump, lookupB, Ne.symm h]
  | cons p rest ih =>
    obtain ⟨k', n⟩ := p
    by_cases hk : k' = k
    · subst hk
      have hkj : ¬ k' = j := fun h' => h (h'.symm)
      simp [bump, lookupB, hkj]
    · by_cases hj : k' = j
      · subst hj
        simp [bump, lookupB, hk]
      · simp [bump, lookupB, hk, hj, ih]

lemma sumValues_bump (b : List (String × Nat)) (k : String) :
    sumValues (bump b k) = sumValues b + 1 := by
  induction b with
  | nil => simp [bump, sumValues]
  | cons p rest ih =>
    obtain ⟨k', n⟩ := p
    by_cases h : k' = k
    · subst h; simp [bump, sumValues]; omega
    · simp [bump, sumValues, h, ih]; omega

lemma bump_pos (b : List (String × Nat)) (k : String)
    (h : ∀ p ∈ b, 0 < p.2) : ∀ p ∈ bump b k, 0 < p.2 := by
  induction b with
  | nil => simp [bump]
  | cons q rest ih =>
    obtain ⟨k', n⟩ := q
    by_cases hk : k' = k
    · subst hk
      intro p hp
      simp only [bump, if_pos rfl] at hp
      rcases List.mem_cons.mp hp with h1 | h1
      · subst h1; simp
      · exact h p (List.mem_cons_of_mem _ h1)
    · intro p hp
      simp only [bump, if_neg hk] at hp
      rcases List.mem_cons.mp hp with h1 | h1
      · subst h1; exact h (k', n) (List.mem_cons_self _ _)
      · exact ih (fun q hq => h q (List.mem_cons_of_mem _ hq)) p h1

lemma foldlBump_lookupB_some (l : List ReactionEvent) (b : List (String × Nat))
    (k : String) (n : Nat) (h : lookupB b k = some n) :
    lookupB (l.foldl (fun b e => bump b e.reaction) b) k = some (n + countKind l k) := by
  induction l generalizing b n with
  | nil => simpa [countKind] using h
  | cons e es ih =>
    rw [List.foldl_cons]
    by_cases hk : e.reaction = k
    · have h2 : lookupB (bump b e.reaction) k = some (n + 1) := by
        rw [hk, bump_lookupB_self, h]; rfl
      rw [ih _ _ h2]
      simp [countKind, hk, Nat.add_assoc]
    · have h2 : lookupB (bump b e.reaction) k = some n := by
        rw [bump_lookupB_other _ _ _ (fun h' => hk h'.symm)]; exact h
      rw [ih _ _ h2]
      simp [countKind, hk]

lemma foldlBump_lookupB_none (l : List ReactionEvent) (b : List (String × Nat))
    (k : String) (h : lookupB b k = none) :
    lookupB (l.foldl (fun b e => bump b e.reaction) b) k =
      if countKind l k = 0 then none else some (countKind l k) := by
  induction l generalizing b with
  | nil => simpa [countKind] using h
  | cons e es ih =>
    rw [List.foldl_cons]
    by_cases hk : e.reaction = k
    · have h2 : lookupB (bump b e.reaction) k = some 1 := by
        rw [hk, bump_lookupB_self, h]; rfl
      rw [foldlBump_lookupB_some es _ _ _ h2]
      have hne : ¬ ((if e.reaction = k then 1 else 0) + countKind es k = 0) := by
        simp [hk]
      simp only [countKind, if_neg hne, hk, if_pos]
      simp
    · have h2 : lookupB (bump b e.reaction) k = none := by
        rw [bump_lookupB_other _ _ _ (fun h' => hk h'.symm)]; exact h
      rw [ih _ h2]
      simp [countKind, hk]

/-- Characterization of the breakdown dict: a kind is present iff its count is
positive, and then its value is exactly its number of occurrences. -/
theorem lookupB_mkBreakdown (l : List ReactionEvent) (k : String) :
    lookupB (mkBreakdown l) k =
      if countKind l k = 0 then none else some (countKind l k) :=
  foldlBump_lookupB_none l [] k rfl

lemma sumValues_foldlBump (l : List ReactionEvent) (b : List (String × Nat)) :
    sumValues (l.foldl (fun b e => bump b e.reaction) b) = sumValues b + l.length := by
  induction l generalizing b with
  | nil => simp
  | cons e es ih =>
    rw [List.foldl_cons, ih, sumValues_bump]
    simp; omega

/-- The breakdown values sum to the number of events. -/
theorem sumValues_mkBreakdown (l : List ReactionEvent) :
    sumValues (mkBreakdown l) = l.length := by
  have := sumValues_foldlBump l []
  simpa [mkBreakdown, sumValues] using this

lemma foldlBump_pos (l : List ReactionEvent) (b : List (String × Nat))
    (h : ∀ p ∈ b, 0 < p.2) :
    ∀ p ∈ l.foldl (fun b e => bump b e.reaction) b, 0 < p.2 := by
  induction l generalizing b with
  | nil => exact h
  | cons e es ih => exact ih _ (bump_pos b e.reaction h)

/-- Every value stored in a breakdown dict is strictly positive. -/
theorem mkBreakdown_pos (l : List ReactionEvent) :
    ∀ p ∈ mkBreakdown l, 0 < p.2 :=
  foldlBump_pos l [] (by simp)

lemma listMin_le_init (xs : List Nat) (a : Nat) : listMin a xs ≤ a := by
  induction xs generalizing a with
  | nil => simp [listMin]
  | cons x xs ih => exact le_trans (ih (min a x)) (min_le_left a x)

lemma listMin_le_mem (xs : List Nat) (a x : Nat) (h : x ∈ xs) : listMin a xs ≤ x := by
  induction xs generalizing a with
  | nil => cases h
  | cons y ys ih =>
    rcases List.mem_cons.mp h with h1 | h2
    · subst h1
      exact le_trans (listMin_le_init ys (min a x)) (min_le_right a x)
    · exact ih (min a y) h2

lemma listMin_mem_or (xs : List Nat) (a : Nat) :
    listMin a xs = a ∨ listMin a xs ∈ xs := by
  induction xs generalizing a with
  | nil => left; rfl
  | cons x xs ih =>
    rcases ih (min a x) with h | h
    · rcases min_choice a x with h2 | h2
      · left
        have hu : listMin a (x :: xs) = listMin (min a x) xs := rfl
        rw [hu, h, h2]
      · right
        have hu : listMin a (x :: xs) = listMin (min a x) xs := rfl
        rw [hu, h, h2]
        exact List.mem_cons_self _ _
    · right
      simp only [listMin]
      exact List.mem_cons_of_mem x h

lemma listMax_ge_init (xs : List Nat) (a : Nat) : a ≤ listMax a xs := by
  induction xs generalizing a with
  | nil => simp [listMax]
  | cons x xs ih => exact le_trans (le_max_left a x) (ih (max a x))

lemma listMax_ge_mem (xs : List Nat) (a x : Nat) (h : x ∈ xs) : x ≤ listMax a xs := by
  induction xs generalizing a with
  | nil => cases h
  | cons y ys ih =>
    rcases List.mem_cons.mp h with h1 | h2
    · subst h1
      exact le_trans (le_max_right a x) (listMax_ge_init ys (max a x))
    · exact ih (max a y) h2

lemma listMax_mem_or (xs : List Nat) (a : Nat) :
    listMax a xs = a ∨ listMax a xs ∈ xs := by
  induction xs generalizing a with
  | nil => left; rfl
  | cons x xs ih =>
    rcases ih (max a x) with h | h
    · rcases max_choice a x with h2 | h2
      · left
        have hu : listMax a (x :: xs) = listMax (max a x) xs := rfl
        rw [hu, h, h2]
      · right
        have hu : listMax a (x :: xs) = listMax (max a x) xs := rfl
        rw [hu, h, h2]
        exact List.mem_cons_self _ _
    · right
      simp only [listMax]
      exact List.mem_cons_of_mem x h

lemma pyMin_mem (xs : List Nat) (h : xs ≠ []) : pyMin xs ∈ xs := by
  cases xs with
  | nil => exact absurd rfl h
  | cons x t =>
    rcases listMin_mem_or t x with h1 | h1
    · simp [pyMin, h1]
    · exact List.mem_cons_of_mem x (by simpa [pyMin] using h1)

lemma pyMin_le (xs : List Nat) (y : Nat) (h : y ∈ xs) : pyMin xs ≤ y := by
  cases xs with
  | nil => cases h
  | cons x t =>
    rcases List.mem_cons.mp h with h1 | h1
    · subst h1; exact listMin_le_init t y
    · exact listMin_le_mem t x y h1

lemma pyMax_mem (xs : List Nat) (h : xs ≠ []) : pyMax xs ∈ xs := by
  cases xs with
  | nil => exact absurd rfl h
  | cons x t =>
    rcases listMax_mem_or t x with h1 | h1
    · simp [pyMax, h1]
    · exact List.mem_cons_of_mem x (by simpa [pyMax] using h1)

lemma pyMax_ge (xs : List Nat) (y : Nat) (h : y ∈ xs) : y ≤ pyMax xs := by
  cases xs with
  | nil => cases h
  | cons x t =>
    rcases List.mem_cons.mp h with h1 | h1
    · subst h1; exact listMax_ge_init t y
    · exact listMax_ge_mem t x y h1

lemma lookupStats_upsert_self (s : Store) (k : PKey) (r : StatsRecord) :
    lookupStats (upsert s k r) k = some r := by
  induction s with
  | nil => simp [upsert, lookupStats]
  | cons p rest ih =>
    obtain ⟨k', r'⟩ := p
    by_cases h : k' = k
    · subst h; simp [upsert, lookupStats]
    · simp [upsert, lookupStats, h, ih]

lemma lookupStats_upsert_other (s : Store) (k' k : PKey) (r : StatsRecord)
    (h : k' ≠ k) : lookupStats (upsert s k' r) k = lookupStats s k := by
  induction s with
  | nil => simp [upsert, lookupStats, h]
  | cons p rest ih =>
    obtain ⟨k0, r0⟩ := p
    by_cases h0 : k0 = k'
    · subst h0; simp [upsert, lookupStats, h]
    · by_cases h1 : k0 = k
      · subst h1
        simp [upsert, lookupStats, h0]
      · simp [upsert, lookupStats, h0, h1, ih]

lemma lookupStats_eq_none_of_not_mem (s : Store) (k : PKey)
    (h : k ∉ s.map Prod.fst) : lookupStats s k = none := by
  induction s with
  | nil => rfl
  | cons p rest ih =>
    obtain ⟨k0, r0⟩ := p
    simp only [List.map_cons, List.mem_cons] at h
    push_neg at h
    have hk : k0 ≠ k := fun h' => h.1 (h' ▸ rfl)
    simp [lookupStats, hk, ih h.2]

lemma lookupStats_deleteKey_self (s : Store) (k : PKey)
    (hnd : (s.map Prod.fst).Nodup) : lookupStats (deleteKey s k) k = none := by
  induction s with
  | nil => rfl
  | cons p rest ih =>
    obtain ⟨k0, r0⟩ := p
    simp only [List.map_cons, List.nodup_cons] at hnd
    by_cases h : k0 = k
    · subst h
      simp only [deleteKey, if_pos rfl]
      exact lookupStats_eq_none_of_not_mem rest k0 hnd.1
    · simp [deleteKey, lookupStats, h, ih hnd.2]

lemma mem_eventsFor (db : List ReactionEvent) (dn : String) (pid : Nat)
    (e : ReactionEvent) :
    e ∈ eventsFor db dn pid ↔ e ∈ db ∧ e.display_name = dn ∧ e.photo_id = pid := by
  induction db with
  | nil => simp [eventsFor]
  | cons f fs ih =>
    by_cases h : f.display_name = dn ∧ f.photo_id = pid
    · simp only [eventsFor, if_pos h, List.mem_cons, ih]
      constructor
      · rintro (rfl | ⟨hm, h1, h2⟩)
        · exact ⟨Or.inl rfl, h.1, h.2⟩
        · exact ⟨Or.inr hm, h1, h2⟩
      · rintro ⟨rfl | hm, h1, h2⟩
        · exact Or.inl rfl
        · exact Or.inr ⟨hm, h1, h2⟩
    · simp only [eventsFor, if_neg h, ih, List.mem_cons]
      constructor
      · rintro ⟨hm, h1, h2⟩
        exact ⟨Or.inr hm, h1, h2⟩
      · rintro ⟨rfl | hm, h1, h2⟩
        · exact absurd ⟨h1, h2⟩ h
        · exact ⟨hm, h1, h2⟩

lemma countKind_perm (l1 l2 : List ReactionEvent) (hp : l1.Perm l2) (k : String) :
    countKind l1 k = countKind l2 k := by
  induction hp with
  | nil => rfl
  | cons e p ih => simp [countKind, ih]
  | swap e1 e2 l => simp only [countKind]; omega
  | trans p q ih1 ih2 => exact ih1.trans ih2

lemma pyMin_perm (xs ys : List Nat) (hp : xs.Perm ys) (hne : xs ≠ []) :
    pyMin xs = pyMin ys := by
  have hys : ys ≠ [] := by
    intro h
    subst h
    exact hne hp.eq_nil
  apply le_antisymm
  · exact pyMin_le xs _ (hp.mem_iff.mpr (pyMin_mem ys hys))
  · exact pyMin_le ys _ (hp.mem_iff.mp (pyMin_mem xs hne))

lemma pyMax_perm (xs ys : List Nat) (hp : xs.Perm ys) (hne : xs ≠ []) :
    pyMax xs = pyMax ys := by
  have hys : ys ≠ [] := by
    intro h
    subst h
    exact hne hp.eq_nil
  apply le_antisymm
  · exact pyMax_ge ys _ (hp.mem_iff.mp (pyMax_mem xs hne))
  · exact pyMax_ge xs _ (hp.mem_iff.mpr (pyMax_mem ys hys))

lemma mem_keysOf_aux (L : List ReactionEvent) (acc : List PKey) (k : PKey) :
    k ∈ L.foldl (fun ks e => if eventKey e ∈ ks then ks else ks ++ [eventKey e]) acc ↔
      k ∈ acc ∨ ∃ e ∈ L, eventKey e = k := by
  induction L generalizing acc with
  | nil => simp
  | cons e es ih =>
    rw [List.foldl_cons]
    by_cases h : eventKey e ∈ acc
    · rw [if_pos h, ih]
      simp only [List.mem_cons]
      constructor
      · rintro (ha | ⟨e', he', hk⟩)
        · exact Or.inl ha
        · exact Or.inr ⟨e', Or.inr he', hk⟩
      · rintro (ha | ⟨e', rfl | he', hk⟩)
        · exact Or.inl ha
        · exact Or.inl (hk ▸ h)
        · exact Or.inr ⟨e', he', hk⟩
    · rw [if_neg h, ih]
      constructor
      · rintro (ha | ⟨e', he', hk⟩)
        · rcases List.mem_append.mp ha with ha1 | ha2
          · exact Or.inl ha1
          · have hke : k = eventKey e := List.mem_singleton.mp ha2
            exact Or.inr ⟨e, List.mem_cons_self _ _, hke.symm⟩
        · exact Or.inr ⟨e', List.mem_cons_of_mem _ he', hk⟩
      · rintro (ha | ⟨e', he', hk⟩)
        · exact Or.inl (List.mem_append.mpr (Or.inl ha))
        · rcases List.mem_cons.mp he' with rfl | he2
          · exact Or.inl (List.mem_append.mpr (Or.inr (List.mem_singleton.mpr hk.symm)))
          · exact Or.inr ⟨e', he2, hk⟩

lemma mem_keysOf (L : List ReactionEvent) (k : PKey) :
    k ∈ keysOf L ↔ ∃ e ∈ L, eventKey e = k := by
  rw [keysOf, mem_keysOf_aux]
  simp

lemma lookupStats_foldUpsert_not_mem (ks : List PKey) (v : PKey → StatsRecord)
    (s : Store) (k : PKey) (h : k ∉ ks) :
    lookupStats (ks.foldl (fun s k' => upsert s k' (v k')) s) k = lookupStats s k := by
  induction ks generalizing s with
  | nil => rfl
  | cons k0 rest ih =>
    simp only [List.mem_cons] at h
    push_neg at h
    rw [List.foldl_cons, ih _ h.2, lookupStats_upsert_other _ _ _ _ (Ne.symm h.1)]

lemma lookupStats_foldUpsert_mem (ks : List PKey) (v : PKey → StatsRecord)
    (s : Store) (k : PKey) (h : k ∈ ks) :
    lookupStats (ks.foldl (fun s k' => upsert s k' (v k')) s) k = some (v k) := by
  induction ks generalizing s with
  | nil => cases h
  | cons k0 rest ih =>
    rw [List.foldl_cons]
    by_cases hk : k ∈ rest
    · exact ih _ hk
    · have hk0 : k = k0 := by
        rcases List.mem_cons.mp h with h1 | h1
        · exact h1
        · exact absurd h1 hk
      subst hk0
      rw [lookupStats_foldUpsert_not_mem rest v _ k hk, lookupStats_upsert_self]

lemma lookupStats_filter_mem (s : Store) (ks : List PKey) (k : PKey) (h : k ∈ ks) :
    lookupStats (s.filter (fun p => decide (p.1 ∈ ks))) k = lookupStats s k := by
  induction s with
  | nil => rfl
  | cons p rest ih =>
    obtain ⟨k0, r0⟩ := p
    by_cases hk : k0 = k
    · subst hk
      simp [List.filter_cons, h, lookupStats]
    · by_cases hmem : k0 ∈ ks
      · simp [List.filter_cons, hmem, lookupStats, hk, ih]
      · simp [List.filter_cons, hmem, lookupStats, hk, ih]

lemma lookupStats_filter_not_mem (s : Store) (ks : List PKey) (k : PKey)
    (h : k ∉ ks) :
    lookupStats (s.filter (fun p => decide (p.1 ∈ ks))) k = none := by
  induction s with
  | nil => rfl
  | cons p rest ih =>
    obtain ⟨k0, r0⟩ := p
    by_cases hmem : k0 ∈ ks
    · have hk : k0 ≠ k := fun h' => h (h' ▸ hmem)
      simp [List.filter_cons, hmem, lookupStats, hk, ih]
    · simp [List.filter_cons, hmem, lookupStats, ih]

lemma upsert_self_eq (s : Store) (k : PKey) (r : StatsRecord)
    (h : lookupStats s k = some r) : upsert s k r = s := by
  induction s with
  | nil => simp [lookupStats] at h
  | cons p rest ih =>
    obtain ⟨k0, r0⟩ := p
    by_cases hk : k0 = k
    · subst hk
      have hr : r0 = r := by simpa [lookupStats] using h
      subst hr
      simp [upsert]
    · simp only [lookupStats, if_neg hk] at h
      simp [upsert, hk, ih h]

lemma foldUpsert_eq_self (ks : List PKey) (v : PKey → StatsRecord) (s : Store)
    (h : ∀ k ∈ ks, lookupStats s k = some (v k)) :
    ks.foldl (fun s k' => upsert s k' (v k')) s = s := by
  induction ks with
  | nil => rfl
  | cons k0 rest ih =>
    rw [List.foldl_cons, upsert_self_eq s k0 (v k0) (h k0 (List.mem_cons_self _ _))]
    exact ih (fun k hk => h k (List.mem_cons_of_mem _ hk))

lemma filter_keys_eq_self (s : Store) (ks : List PKey)
    (h : ∀ p ∈ s, p.1 ∈ ks) : s.filter (fun p => decide (p.1 ∈ ks)) = s :=
  List.filter_eq_self.mpr (fun p hp => by simpa using h p hp)

/-- Characterization of a full resync: the resulting store holds exactly the
recomputed record of every key that has at least one reaction, independently
of the previous store contents. -/
theorem lookupStats_syncAll (L : List ReactionEvent) (S : Store) (k : PKey) :
    lookupStats (syncAll L S) k =
      if k ∈ keysOf L then some (recordFor L k) else none := by
  by_cases h : k ∈ keysOf L
  · rw [if_pos h]
    simp only [syncAll]
    rw [lookupStats_filter_mem _ _ _ h, lookupStats_foldUpsert_mem _ _ _ _ h]
  · rw [if_neg h]
    simp only [syncAll]
    exact lookupStats_filter_not_mem _ _ _ h

/-- Running the full resync twice in a row with the same reaction log leaves
the stats store unchanged. -/
theorem syncAll_idem (L : List ReactionEvent) (S : Store) :
    syncAll L (syncAll L S) = syncAll L S := by
  have hlook : ∀ k ∈ keysOf L,
      lookupStats (syncAll L S) k = some (recordFor L k) := by
    intro k hk
    rw [lookupStats_syncAll, if_pos hk]
  have hkeys : ∀ p ∈ syncAll L S, p.1 ∈ keysOf L := by
    intro p hp
    simp only [syncAll] at hp
    exact of_decide_eq_true (List.mem_filter.mp hp).2
  show ((keysOf L).foldl (fun s k => upsert s k (recordFor L k)) (syncAll L S)).filter
      (fun p => decide (p.1 ∈ keysOf L)) = syncAll L S
  rw [foldUpsert_eq_self _ _ _ hlook]
  exact filter_keys_eq_self _ _ hkeys

lemma eventsFor_ne_nil_of_mem_keysOf (L : List ReactionEvent) (k : PKey)
    (h : k ∈ keysOf L) : eventsFor L k.1 k.2 ≠ [] := by
  rw [mem_keysOf] at h
  obtain ⟨e, he, hk⟩ := h
  have h1 : e.display_name = k.1 := by rw [← hk]; rfl
  have h2 : e.photo_id = k.2 := by rw [← hk]; rfl
  have hmem : e ∈ eventsFor L k.1 k.2 :=
    (mem_eventsFor L k.1 k.2 e).mpr ⟨he, h1, h2⟩
  intro hnil
  rw [hnil] at hmem
  cases hmem

lemma aggregate_eq_none_iff (l : List ReactionEvent) :
    aggregate l = none ↔ l = [] := by
  cases l <;> simp [aggregate]

lemma aggregate_some_fields (l : List ReactionEvent) (r : StatsRecord)
    (h : aggregate l = some r) :
    r.reaction_breakdown = mkBreakdown l ∧
    r.total_reactions = sumValues (mkBreakdown l) ∧
    r.first_reaction_date = pyMin (l.map ReactionEvent.created_at) ∧
    r.last_reaction_date = pyMax (l.map ReactionEvent.created_at) := by
  cases l with
  | nil => simp [aggregate] at h
  | cons e es =>
    simp only [aggregate, Option.some_inj] at h
    subst h
    exact ⟨rfl, rfl, rfl, rfl⟩

lemma aggregate_invariants (l : List ReactionEvent) (r : StatsRecord)
    (h : aggregate l = some r) (K : String) (hK : countKind l K = 0) :
    r.total_reactions = sumValues r.reaction_breakdown ∧
    (∀ p ∈ r.reaction_breakdown, 0 < p.2) ∧
    lookupB r.reaction_breakdown K = none := by
  obtain ⟨hb, ht, -, -⟩ := aggregate_some_fields l r h
  refine ⟨by rw [ht, hb], ?_, ?_⟩
  · rw [hb]; exact mkBreakdown_pos l
  · rw [hb, lookupB_mkBreakdown, if_pos hK]

lemma pickBest_eq_none_iff (l : List (PKey × StatsRecord))
    (acc : Option (PKey × StatsRecord)) :
    pickBest acc l = none ↔ acc = none ∧ l = [] := by
  induction l generalizing acc with
  | nil => cases acc <;> simp [pickBest]
  | cons p rest ih =>
    cases acc with
    | none => simp [pickBest, ih]
    | some q =>
      simp only [pickBest, ih]
      constructor
      · rintro ⟨hif, -⟩
        split at hif <;> simp at hif
      · rintro ⟨h1, -⟩
        simp at h1

lemma pickBest_result (l : List (PKey × StatsRecord))
    (acc : Option (PKey × StatsRecord)) (k : PKey) (r : StatsRecord)
    (h : pickBest acc l = some (k, r)) :
    ((k, r) ∈ l ∨ acc = some (k, r)) ∧
    (∀ p ∈ l, p.2.total_reactions ≤ r.total_reactions) ∧
    (∀ q, acc = some q → q.2.total_reactions ≤ r.total_reactions) := by
  induction l generalizing acc with
  | nil =>
    simp only [pickBest] at h
    refine ⟨Or.inr h, by simp, ?_⟩
    intro q hq
    rw [hq] at h
    rw [Option.some_inj.mp h]
  | cons p rest ih =>
    cases acc with
    | none =>
      simp only [pickBest] at h
      obtain ⟨hm, hall, hacc⟩ := ih _ h
      refine ⟨?_, ?_, by simp⟩
      · rcases hm with hm | hm
        · exact Or.inl (List.mem_cons_of_mem _ hm)
        · exact Or.inl (by rw [← Option.some_inj.mp hm]; exact List.mem_cons_self _ _)
      · intro p' hp'
        rcases List.mem_cons.mp hp' with rfl | hmem
        · exact hacc p' rfl
        · exact hall p' hmem
    | some q =>
      simp only [pickBest] at h
      obtain ⟨hm, hall, hacc⟩ := ih _ h
      by_cases hc : q.2.total_reactions < p.2.total_reactions
      · rw [if_pos hc] at hm hacc
        refine ⟨?_, ?_, ?_⟩
        · rcases hm with hm | hm
          · exact Or.inl (List.mem_cons_of_mem _ hm)
          · exact Or.inl (by rw [← Option.some_inj.mp hm]; exact List.mem_cons_self _ _)
        · intro p' hp'
          rcases List.mem_cons.mp hp' with rfl | hmem
          · exact hacc p' rfl
          · exact hall p' hmem
        · intro q0 hq0
          rw [← Option.some_inj.mp hq0]
          exact le_trans (le_of_lt hc) (hacc p rfl)
      · rw [if_neg hc] at hm hacc
        push_neg at hc
        refine ⟨?_, ?_, ?_⟩
        · rcases hm with hm | hm
          · exact Or.inl (List.mem_cons_of_mem _ hm)
          · exact Or.inr hm
        · intro p' hp'
          rcases List.mem_cons.mp hp' with rfl | hmem
          · exact le_trans hc (hacc q rfl)
          · exact hall p' hmem
        · intro q0 hq0
          rw [← Option.some_inj.mp hq0]
          exact hacc q rfl

/-- C1: for every non-empty event list, the aggregate produces a record whose
breakdown maps each reaction kind to its number of occurrences, whose total
equals the number of events and equally the sum of the breakdown values, and
whose first and last reaction dates are the minimum and maximum of the
events' created_at. -/
theorem aggregate_counts_and_dates (l : List ReactionEvent) (r : StatsRecord)
    (h : aggregate l = some r) :
    (∀ k, (lookupB r.reaction_breakdown k).getD 0 = countKind l k) ∧
    r.total_reactions = l.length ∧
    r.total_reactions = sumValues r.reaction_breakdown ∧
    (∀ e ∈ l, r.first_reaction_date ≤ e.created_at ∧
      e.created_at ≤ r.last_reaction_date) ∧
    (∃ e ∈ l, r.first_reaction_date = e.created_at) ∧
    (∃ e ∈ l, r.last_reaction_date = e.created_at) := by
  obtain ⟨hb, ht, hf, hl⟩ := aggregate_some_fields l r h
  have hnil : l ≠ [] := by
    intro h0
    subst h0
    simp [aggregate] at h
  have hmapnil : l.map ReactionEvent.created_at ≠ [] := by
    intro hm
    exact hnil (List.map_eq_nil.mp hm)
  refine ⟨?_, ?_, ?_, ?_, ?_, ?_⟩
  · intro k
    rw [hb, lookupB_mkBreakdown]
    by_cases hc : countKind l k = 0
    · simp [hc]
    · simp [hc]
  · rw [ht, sumValues_mkBreakdown]
  · rw [ht, hb]
  · intro e he
    constructor
    · rw [hf]
      exact pyMin_le _ _ (List.mem_map_of_mem _ he)
    · rw [hl]
      exact pyMax_ge _ _ (List.mem_map_of_mem _ he)
  · obtain ⟨e, he, hee⟩ := List.mem_map.mp (pyMin_mem _ hmapnil)
    exact ⟨e, he, by rw [hf, ← hee]⟩
  · obtain ⟨e, he, hee⟩ := List.mem_map.mp (pyMax_mem _ hmapnil)
    exact ⟨e, he, by rw [hl, ← hee]⟩

/-- Witness for C1: Scenario A evaluates to total 3, breakdown coeur 2 and
fire 1, first t1, last t3. -/
theorem aggregate_counts_and_dates_witness :
    aggregate scenarioA = some scenarioARecord ∧
    scenarioARecord.total_reactions = 3 ∧
    scenarioARecord.reaction_breakdown = [("coeur", 2), ("fire", 1)] ∧
    scenarioARecord.first_reaction_date = evAlice.created_at ∧
    scenarioARecord.last_reaction_date = evCarol.created_at ∧
    scenarioARecord.total_reactions = scenarioA.length :=
  ⟨rfl, rfl, rfl, rfl, rfl,
    (aggregate_counts_and_dates scenarioA scenarioARecord rfl).2.1⟩

/-- C2: after a recompute for a key, a stats record is present iff at least
one reaction event exists for that key; on an empty event set the record is
deleted rather than zeroed, and the stats query then reports not found. -/
theorem stats_record_exists_iff_reaction_exists (db : List ReactionEvent)
    (stats : Store) (dn : String) (pid : Nat)
    (hnd : (stats.map Prod.fst).Nodup) :
    (lookupStats (recalculate_stats db stats dn pid).1 (dn, pid) = none ↔
      eventsFor db dn pid = []) ∧
    (eventsFor db dn pid = [] →
      (GetPhotoStats (recalculate_stats db stats dn pid).1 dn pid).found = false) := by
  have main : lookupStats (recalculate_stats db stats dn pid).1 (dn, pid) = none ↔
      eventsFor db dn pid = [] := by
    cases hl : eventsFor db dn pid with
    | nil =>
      simp only [recalculate_stats, hl, aggregate]
      simp [lookupStats_deleteKey_self stats (dn, pid) hnd]
    | cons e es =>
      simp only [recalculate_stats, hl, aggregate]
      rw [lookupStats_upsert_self]
      simp
  refine ⟨main, fun hl => ?_⟩
  have hnone := main.mpr hl
  simp [GetPhotoStats, hnone]

/-- Witness for C2, Scenario C: all three reactions deleted, recompute
removes the stats entry and the query reports not found. -/
theorem stats_record_exists_iff_reaction_exists_witness :
    (([((("j", 5) : PKey), scenarioARecord)].map Prod.fst)).Nodup ∧
    lookupStats (recalculate_stats [] [(("j", 5), scenarioARecord)] "j" 5).1
      ("j", 5) = none ∧
    (GetPhotoStats (recalculate_stats [] [(("j", 5), scenarioARecord)] "j" 5).1
      "j" 5).found = false := by
  have hnd : (([((("j", 5) : PKey), scenarioARecord)].map Prod.fst)).Nodup := by
    simp
  have h := stats_record_exists_iff_reaction_exists []
    [(("j", 5), scenarioARecord)] "j" 5 hnd
  exact ⟨hnd, h.1.mpr rfl, h.2 rfl⟩

/-- C3 counterexample: the claim says only records with last_reaction_at in
the half-open window [start, end) are considered, but the Mongo query uses
lte on the upper bound: a record whose last_reaction_date equals end (and is
therefore outside [start, end)) is returned. -/
theorem getPhotoOfDay_includes_window_end :
    findBest [(("j", 5), scenarioARecord)] 0 3 =
      some (("j", 5), scenarioARecord) ∧
    ¬ scenarioARecord.last_reaction_date < 3 := by
  exact ⟨rfl, by decide⟩

/-- C3 amended: findBest considers exactly the records with
last_reaction_date in the closed interval [start, end] and total greater
than 0, returns one of maximal total among them, and returns none exactly
when no record matches. -/
theorem findBest_max_total_closed_window (stats : Store) (a b : Nat) :
    (findBest stats a b = none ↔ ∀ p ∈ stats, inWindowB a b p.2 = false) ∧
    (∀ k r, findBest stats a b = some (k, r) →
      (k, r) ∈ stats ∧ inWindowB a b r = true ∧
      ∀ p ∈ stats, inWindowB a b p.2 = true →
        p.2.total_reactions ≤ r.total_reactions) := by
  constructor
  · rw [findBest, pickBest_eq_none_iff]
    simp only [true_and, List.filter_eq_nil]
    constructor
    · intro h p hp
      have := h p hp
      simp at this
      exact this
    · intro h p hp
      simp [h p hp]
  · intro k r h
    rw [findBest] at h
    obtain ⟨hm, hall, -⟩ := pickBest_result _ _ _ _ h
    rcases hm with hm | hm
    · have hmem := List.mem_filter.mp hm
      refine ⟨hmem.1, ?_, ?_⟩
      · simpa using hmem.2
      · intro p hp hw
        exact hall p (List.mem_filter.mpr ⟨hp, by simp [hw]⟩)
    · cases hm

/-- Witness for C3 amended, Scenario E: two matching records with totals 3
and 7, the one with total 7 is returned together with its guarantees. -/
theorem findBest_max_total_closed_window_witness :
    findBest scenarioEStore 0 10 = some (("k", 1), scenarioERecord) ∧
    (("k", 1), scenarioERecord) ∈ scenarioEStore ∧
    inWindowB 0 10 scenarioERecord = true ∧
    scenarioERecord.total_reactions = 7 := by
  have h := (findBest_max_total_closed_window scenarioEStore 0 10).2
    ("k", 1) scenarioERecord rfl
  exact ⟨rfl, h.1, h.2.1, rfl⟩

/-- C4: every stats record written by incremental recompute or full resync
has total equal to the sum of its breakdown values, only strictly positive
breakdown entries, and — because the write fully replaces the previous
record — no entry for a kind that no longer occurs among the events. -/
theorem recompute_breakdown_invariants (db : List ReactionEvent) (stats : Store)
    (dn : String) (pid : Nat) (K : String)
    (hnd : (stats.map Prod.fst).Nodup)
    (hK : countKind (eventsFor db dn pid) K = 0) :
    (∀ r, lookupStats (recalculate_stats db stats dn pid).1 (dn, pid) = some r →
      r.total_reactions = sumValues r.reaction_breakdown ∧
      (∀ p ∈ r.reaction_breakdown, 0 < p.2) ∧
      lookupB r.reaction_breakdown K = none) ∧
    (∀ r, lookupStats (syncAll db stats) (dn, pid) = some r →
      r.total_reactions = sumValues r.reaction_breakdown ∧
      (∀ p ∈ r.reaction_breakdown, 0 < p.2) ∧
      lookupB r.reaction_breakdown K = none) := by
  constructor
  · intro r hr
    cases hl : eventsFor db dn pid with
    | nil =>
      rw [recalculate_stats] at hr
      rw [hl] at hr
      simp only [aggregate] at hr
      rw [lookupStats_deleteKey_self stats (dn, pid) hnd] at hr
      cases hr
    | cons e es =>
      rw [recalculate_stats] at hr
      rw [hl] at hr
      simp only [aggregate] at hr
      rw [lookupStats_upsert_self] at hr
      have hrr : aggregateRecord e es = r := Option.some_inj.mp hr
      have hagg : aggregate (e :: es) = some r := by rw [aggregate, hrr]
      rw [hl] at hK
      exact aggregate_invariants (e :: es) r hagg K hK
  · intro r hr
    rw [lookupStats_syncAll] at hr
    by_cases hkmem : ((dn, pid) : PKey) ∈ keysOf db
    · rw [if_pos hkmem] at hr
      have hne := eventsFor_ne_nil_of_mem_keysOf db (dn, pid) hkmem
      cases hl : eventsFor db dn pid with
      | nil => exact absurd hl hne
      | cons e es =>
        have hrec : recordFor db (dn, pid) = aggregateRecord e es := by
          simp only [recordFor]
          rw [hl]
        rw [hrec] at hr
        have hrr : aggregateRecord e es = r := Option.some_inj.mp hr
        have hagg : aggregate (e :: es) = some r := by rw [aggregate, hrr]
        rw [hl] at hK
        exact aggregate_invariants (e :: es) r hagg K hK
    · rw [if_neg hkmem] at hr
      cases hr

/-- Witness for C4: after the only coeur contributor disappears, recompute
over carol's single fire reaction replaces the stored record and the stale
coeur key is gone. -/
theorem recompute_breakdown_invariants_witness :
    (([((("j", 5) : PKey), scenarioARecord)].map Prod.fst)).Nodup ∧
    countKind (eventsFor [evCarol] "j" 5) "coeur" = 0 ∧
    lookupStats (recalculate_stats [evCarol] [(("j", 5), scenarioARecord)] "j" 5).1
      ("j", 5) = some carolOnlyRecord ∧
    lookupB carolOnlyRecord.reaction_breakdown "coeur" = none ∧
    carolOnlyRecord.total_reactions = sumValues carolOnlyRecord.reaction_breakdown := by
  have hnd : (([((("j", 5) : PKey), scenarioARecord)].map Prod.fst)).Nodup := by
    simp
  have h := (recompute_breakdown_invariants [evCarol]
    [(("j", 5), scenarioARecord)] "j" 5 "coeur" hnd rfl).1 carolOnlyRecord rfl
  exact ⟨hnd, rfl, rfl, h.2.2, h.1⟩

/-- C5: updating a reaction overwrites only its kind and updated_at — never
created_at nor the key fields — and because the aggregation derives the
first and last reaction dates from created_at only, a recompute after any
kind update keeps both dates unchanged while the breakdown counts the new
kinds. -/
theorem update_preserves_created_at_timeline (l : List ReactionEvent)
    (f : ReactionEvent → String) (g : ReactionEvent → Nat) (r r2 : StatsRecord)
    (h : aggregate l = some r)
    (h2 : aggregate (l.map fun e => updateReactionEvent e (f e) (g e)) = some r2) :
    (∀ e newKind now,
      (updateReactionEvent e newKind now).created_at = e.created_at ∧
      (updateReactionEvent e newKind now).reaction = newKind ∧
      (updateReactionEvent e newKind now).updated_at = now ∧
      (updateReactionEvent e newKind now).display_name = e.display_name ∧
      (updateReactionEvent e newKind now).photo_id = e.photo_id ∧
      (updateReactionEvent e newKind now).reactor_name = e.reactor_name) ∧
    r2.first_reaction_date = r.first_reaction_date ∧
    r2.last_reaction_date = r.last_reaction_date ∧
    (∀ k, (lookupB r2.reaction_breakdown k).getD 0 =
      countKind (l.map fun e => updateReactionEvent e (f e) (g e)) k) := by
  obtain ⟨hb1, ht1, hf1, hl1⟩ := aggregate_some_fields l r h
  obtain ⟨hb2, ht2, hf2, hl2⟩ := aggregate_some_fields _ r2 h2
  have hmap : (l.map fun e => updateReactionEvent e (f e) (g e)).map
      ReactionEvent.created_at = l.map ReactionEvent.created_at := by
    rw [List.map_map]
    exact List.map_congr_left (fun e _ => rfl)
  refine ⟨fun e newKind now => ⟨rfl, rfl, rfl, rfl, rfl, rfl⟩, ?_, ?_, ?_⟩
  · rw [hf2, hf1, hmap]
  · rw [hl2, hl1, hmap]
  · intro k
    rw [hb2, lookupB_mkBreakdown]
    by_cases hc : countKind (l.map fun e => updateReactionEvent e (f e) (g e)) k = 0
    · simp [hc]
    · simp [hc]

/-- Witness for C5, Scenario D: alice's reaction switches from coeur to
fire; the recomputed breakdown is fire 2 and the first reaction date is
still 1. -/
theorem update_preserves_created_at_timeline_witness :
    aggregate scenarioBList = some scenarioBRecord ∧
    aggregate (scenarioBList.map fun e => updateReactionEvent e (scenarioDNewKind e) 9) =
      some scenarioDRecord ∧
    scenarioDRecord.reaction_breakdown = [("fire", 2)] ∧
    scenarioDRecord.first_reaction_date = scenarioBRecord.first_reaction_date ∧
    scenarioBRecord.first_reaction_date = 1 :=
  ⟨rfl, rfl, rfl,
    (update_preserves_created_at_timeline scenarioBList scenarioDNewKind
      (fun _ => 9) scenarioBRecord scenarioDRecord rfl rfl).2.1, rfl⟩

/-- C6: the aggregation is deterministic over the event set — any two
orderings of the same events yield records agreeing on total, first and last
dates and on every breakdown count — and running the full resync twice with
no intervening mutations leaves the stats store unchanged. -/
theorem aggregate_deterministic_and_resync_idempotent
    (l1 l2 : List ReactionEvent) (r1 r2 : StatsRecord) (hp : l1.Perm l2)
    (h1 : aggregate l1 = some r1) (h2 : aggregate l2 = some r2)
    (L : List ReactionEvent) (S : Store) :
    r1.total_reactions = r2.total_reactions ∧
    r1.first_reaction_date = r2.first_reaction_date ∧
    r1.last_reaction_date = r2.last_reaction_date ∧
    (∀ k, lookupB r1.reaction_breakdown k = lookupB r2.reaction_breakdown k) ∧
    syncAll L (syncAll L S) = syncAll L S := by
  obtain ⟨hb1, ht1, hf1, hl1⟩ := aggregate_some_fields l1 r1 h1
  obtain ⟨hb2, ht2, hf2, hl2⟩ := aggregate_some_fields l2 r2 h2
  have hne1 : l1 ≠ [] := by
    intro h0
    subst h0
    simp [aggregate] at h1
  have hmapperm := hp.map ReactionEvent.created_at
  have hmapne : l1.map ReactionEvent.created_at ≠ [] := by
    intro hm
    exact hne1 (List.map_eq_nil.mp hm)
  refine ⟨?_, ?_, ?_, ?_, syncAll_idem L S⟩
  · rw [ht1, ht2, sumValues_mkBreakdown, sumValues_mkBreakdown]
    exact hp.length_eq
  · rw [hf1, hf2]
    exact pyMin_perm _ _ hmapperm hmapne
  · rw [hl1, hl2]
    exact pyMax_perm _ _ hmapperm hmapne
  · intro k
    rw [hb1, hb2, lookupB_mkBreakdown, lookupB_mkBreakdown,
      countKind_perm l1 l2 hp k]

/-- Witness for C6: a reordering of Scenario A aggregates to the same record
and a second resync over Scenario A is a no-op. -/
theorem aggregate_deterministic_and_resync_idempotent_witness :
    scenarioA.Perm [evBob, evAlice, evCarol] ∧
    aggregate [evBob, evAlice, evCarol] = some scenarioARecord ∧
    syncAll scenarioA (syncAll scenarioA []) = syncAll scenarioA [] := by
  have hp : scenarioA.Perm [evBob, evAlice, evCarol] :=
    List.Perm.swap evBob evAlice [evCarol]
  exact ⟨hp, rfl,
    (aggregate_deterministic_and_resync_idempotent scenarioA
      [evBob, evAlice, evCarol] scenarioARecord scenarioARecord hp rfl rfl
      scenarioA []).2.2.2.2⟩

/-- C7 counterexample: when the storage layer fails during the recompute
triggered by IncrementReaction, the failure is not surfaced as an
unsuccessful result — the handler still reports success, because
recalculate_stats swallows the exception and the handler's own error branch
never sees it. -/
theorem increment_reports_success_on_storage_failure :
    (IncrementReaction true scenarioA [] "j" 5 "coeur").2.success = true ∧
    (IncrementReaction true scenarioA [] "j" 5 "coeur").2.message =
      "Reaction incremented successfully" :=
  ⟨rfl, rfl⟩

/-- C7 amended: storage failures during recompute are not retried and not
surfaced: the response always reports success (with total 0 on failure), and
the store is never left half-aggregated — it is either untouched or holds
the full recompute result. -/
theorem recompute_failure_swallowed (fail : Bool) (db : List ReactionEvent)
    (stats : Store) (dn : String) (pid : Nat) (rt : String) :
    (IncrementReaction fail db stats dn pid rt).2.success = true ∧
    ((IncrementReaction fail db stats dn pid rt).1 = stats ∨
      (IncrementReaction fail db stats dn pid rt).1 =
        (recalculate_stats db stats dn pid).1) ∧
    (fail = true →
      (IncrementReaction fail db stats dn pid rt).1 = stats ∧
      (IncrementReaction fail db stats dn pid rt).2.total_reactions = 0) := by
  cases fail
  · exact ⟨rfl, Or.inr rfl, by simp⟩
  · exact ⟨rfl, Or.inl rfl, fun _ => ⟨rfl, rfl⟩⟩

/-- Witness for C7 amended: on a concrete failing run the store is unchanged
and the reported total is 0. -/
theorem recompute_failure_swallowed_witness :
    (IncrementReaction true scenarioA [] "j" 5 "coeur").1 = [] ∧
    (IncrementReaction true scenarioA [] "j" 5 "coeur").2.total_reactions = 0 :=
  (recompute_failure_swallowed true scenarioA [] "j" 5 "coeur").2.2 rfl

/-- C8 counterexample: deleting a reaction that does not exist is not an
idempotent no-op — the handler raises ReactionNotFoundError (and leaves the
collection untouched). -/
theorem delete_missing_reaction_errors :
    (delete_reaction (fun _ _ => true) [] "j" 5 "alice").2 =
      Except.error ReactionError.reactionNotFound ∧
    (delete_reaction (fun _ _ => true) [] "j" 5 "alice").1 = [] :=
  ⟨rfl, rfl⟩

/-- C8 amended: when no reaction exists for the given
(display_name, photo_id, reactor_name), both delete and update fail with
NotFound before any write or notification, leaving the reaction log (and
hence the stats store, which is never reached) unchanged. -/
theorem missing_reaction_not_found (photoEx : String → Nat → Bool)
    (allowed : List String) (db : List ReactionEvent) (dn : String) (pid : Nat)
    (rn newKind : String) (now : Nat)
    (hph : photoEx dn pid = true) (hk : newKind ∈ allowed)
    (habs : findReaction db dn pid rn = none) :
    (delete_reaction photoEx db dn pid rn).2 =
      Except.error ReactionError.reactionNotFound ∧
    (delete_reaction photoEx db dn pid rn).1 = db ∧
    (update_reaction allowed photoEx db dn pid rn newKind now).2 =
      Except.error ReactionError.reactionNotFound ∧
    (update_reaction allowed photoEx db dn pid rn newKind now).1 = db := by
  refine ⟨?_, ?_, ?_, ?_⟩
  · simp [delete_reaction, hph, habs]
  · simp [delete_reaction, hph, habs]
  · simp [update_reaction, hph, hk, habs]
  · simp [update_reaction, hph, hk, habs]

/-- Witness for C8 amended at a concrete missing reaction. -/
theorem missing_reaction_not_found_witness :
    (fun (_ : String) (_ : Nat) => true) "j" 5 = true ∧
    "fire" ∈ ["coeur", "fire"] ∧
    findReaction [] "j" 5 "zoe" = none ∧
    (delete_reaction (fun _ _ => true) [] "j" 5 "zoe").2 =
      Except.error ReactionError.reactionNotFound := by
  refine ⟨rfl, by simp, rfl, ?_⟩
  exact (missing_reaction_not_found (fun _ _ => true) ["coeur", "fire"] []
    "j" 5 "zoe" "fire" 0 rfl (by simp) rfl).1

/-- C9: the recompute step is not serialized per key — the schedule in which
both creates write their event, both read, bob's task writes its record and
alice's stale recompute overwrites it leaves total 1, while the serialized
schedule leaves total 2 as the claim requires. -/
theorem concurrent_creates_race_loses_update :
    (lookupStats (run [true, true, false, false, false, true] raceInit).stats
      ("j", 5)).map StatsRecord.total_reactions = some 1 ∧
    (lookupStats (run [true, true, true, false, false, false] raceInit).stats
      ("j", 5)).map StatsRecord.total_reactions = some 2 :=
  ⟨rfl, rfl⟩

/-- C10: the UpdateReaction notification is never sent — PhotoOfDayClient
(reaction-service clients.py lines 118-145) defines only connect and
increment_reaction, so the client call at reactions.py line 212 raises
AttributeError after the save.  Evaluated at a concrete valid update
(alice's existing reaction, allowed kind, photo present): the handler ends
in the attribute error with the mutated row already saved and no
notification produced; the call-site arguments would have carried
old_reaction_type equal to new_reaction_type, and the stats-service
UpdateReaction RPC ignores those arguments anyway. -/
theorem update_notification_never_sent :
    findReaction scenarioBList "j" 5 "alice" = some evAlice ∧
    (update_reaction ["coeur", "fire"] (fun _ _ => true) scenarioBList
      "j" 5 "alice" "fire" 9).2 = Except.error ReactionError.attributeError ∧
    (update_reaction ["coeur", "fire"] (fun _ _ => true) scenarioBList
      "j" 5 "alice" "fire" 9).1 =
      [updateReactionEvent evAlice "fire" 9, evCarol] ∧
    (updateNotificationArgs "j" 5 (updateReactionEvent evAlice "fire" 9)
        "fire").old_reaction_type =
      (updateNotificationArgs "j" 5 (updateReactionEvent evAlice "fire" 9)
        "fire").new_reaction_type ∧
    (∀ stats : Store, ∀ o1 n1 o2 n2 : String,
      UpdateReactionRPC scenarioBList stats "j" 5 o1 n1 =
        UpdateReactionRPC scenarioBList stats "j" 5 o2 n2) :=
  ⟨rfl, rfl, rfl, rfl, fun _ _ _ _ _ => rfl⟩

end PhotoApp
